import Mathlib

/-!
# Verification of the Vehicle CRUD service

A shallow embedding of the vehicle CRUD service (FastAPI + SQLAlchemy +
Pydantic, files `app/main.py`, `app/schemas.py`, `app/models.py`), together
with proofs about its claims: VIN normalization, case-insensitive uniqueness,
partial-update semantics, error-response shapes, and per-call atomicity.

The store is modelled as a list of rows (insertion order); the relational
engine's declared constraints (`primary_key` on `vin`, `nullable=False` on the
other columns, from `app/models.py`) are modelled as a commit-time check, as
SQLAlchemy surfaces them: a violation raises `IntegrityError`, which the
handlers catch after rolling back.
-/

namespace VehicleApi

/-! ## Python string primitives

`_normalize_vin` in `app/main.py` and `VehicleCreate.validate_vin` in
`app/schemas.py` both compute `vin.upper().strip()`.  We embed Python's
`str.upper` (ASCII case mapping, via `Char.toUpper`) and `str.strip`
(remove leading and trailing whitespace) over the character list of the
string. -/

/-- Python `str.upper()`: uppercase every character (ASCII case mapping). -/
def pyUpper (s : String) : String := ⟨s.data.map Char.toUpper⟩

/-- Remove leading and trailing whitespace from a character list. -/
def stripList (l : List Char) : List Char :=
  ((l.dropWhile Char.isWhitespace).reverse.dropWhile Char.isWhitespace).reverse

/-- Python `str.strip()`: remove leading and trailing whitespace. -/
def pyStrip (s : String) : String := ⟨stripList s.data⟩

/-- `_normalize_vin` from `app/main.py`: `vin.upper().strip()`. -/
def normalize_vin (vin : String) : String := pyStrip (pyUpper vin)

/-! ### Character-level lemmas -/

theorem char_toNat_ofNat {m : Nat} (h : m < 55296) : (Char.ofNat m).toNat = m := by
  rw [Char.ofNat, dif_pos (Or.inl h)]
  rfl

theorem char_eq_iff_toNat {c d : Char} : c = d ↔ c.toNat = d.toNat := by
  constructor
  · intro h; rw [h]
  · intro h
    apply Char.ext
    exact UInt32.toNat.inj h

theorem toUpper_toNat (c : Char) :
    (Char.toUpper c).toNat =
      if c.toNat ≥ 97 ∧ c.toNat ≤ 122 then c.toNat - 32 else c.toNat := by
  by_cases h : c.toNat ≥ 97 ∧ c.toNat ≤ 122
  · rw [if_pos h]
    show (if c.toNat ≥ 97 ∧ c.toNat ≤ 122 then Char.ofNat (c.toNat - 32) else c).toNat = _
    rw [if_pos h]
    exact char_toNat_ofNat (by omega)
  · rw [if_neg h]
    show (if c.toNat ≥ 97 ∧ c.toNat ≤ 122 then Char.ofNat (c.toNat - 32) else c).toNat = _
    rw [if_neg h]

theorem toUpper_idem (c : Char) : Char.toUpper (Char.toUpper c) = Char.toUpper c := by
  have hnot : ¬((Char.toUpper c).toNat ≥ 97 ∧ (Char.toUpper c).toNat ≤ 122) := by
    rw [toUpper_toNat]
    split
    · next h => omega
    · next h => exact h
  rw [char_eq_iff_toNat, toUpper_toNat, if_neg hnot]

theorem isWhitespace_iff (c : Char) :
    c.isWhitespace = true ↔
      (c.toNat = 32 ∨ c.toNat = 9 ∨ c.toNat = 13 ∨ c.toNat = 10) := by
  unfold Char.isWhitespace
  simp only [Bool.or_eq_true, decide_eq_true_eq]
  rw [@char_eq_iff_toNat c ' ', @char_eq_iff_toNat c '\t',
    @char_eq_iff_toNat c '\r', @char_eq_iff_toNat c '\n']
  have h32 : (' ').toNat = 32 := rfl
  have h9 : ('\t').toNat = 9 := rfl
  have h13 : ('\r').toNat = 13 := rfl
  have h10 : ('\n').toNat = 10 := rfl
  rw [h32, h9, h13, h10]
  tauto

theorem isWhitespace_toUpper (c : Char) :
    (Char.toUpper c).isWhitespace = c.isWhitespace := by
  by_cases hch : c.toNat ≥ 97 ∧ c.toNat ≤ 122
  · have hA : (Char.toUpper c).isWhitespace = false := by
      rw [Bool.eq_false_iff]
      intro hb
      have hw := (isWhitespace_iff _).mp hb
      rw [toUpper_toNat, if_pos hch] at hw
      omega
    have hB : c.isWhitespace = false := by
      rw [Bool.eq_false_iff]
      intro hb
      have hw := (isWhitespace_iff _).mp hb
      omega
    rw [hA, hB]
  · have h : Char.toUpper c = c := by
      rw [char_eq_iff_toNat, toUpper_toNat, if_neg hch]
    rw [h]

/-! ### List-level lemmas about strip and upper -/

theorem dropWhile_head?_false (p : α → Bool) (l : List α) (c : α)
    (h : (l.dropWhile p).head? = some c) : p c = false := by
  have hd := List.head?_dropWhile_not p l
  rw [h] at hd
  exact hd

theorem dropWhile_eq_self_of_head? (p : α → Bool) (l : List α)
    (h : ∀ c, l.head? = some c → p c = false) : l.dropWhile p = l := by
  cases l with
  | nil => rfl
  | cons a t =>
    have ha := h a rfl
    exact List.dropWhile_cons_of_neg (by simp [ha])

theorem dropWhile_idem (p : α → Bool) (l : List α) :
    (l.dropWhile p).dropWhile p = l.dropWhile p :=
  dropWhile_eq_self_of_head? p _ (dropWhile_head?_false p l)

theorem getLast?_dropWhile_of_ne_nil (p : α → Bool) (l : List α)
    (h : l.dropWhile p ≠ []) : (l.dropWhile p).getLast? = l.getLast? := by
  obtain ⟨t, ht⟩ := List.dropWhile_suffix (l := l) p
  conv_rhs => rw [← ht]
  rw [List.getLast?_append]
  cases hg : (l.dropWhile p).getLast? with
  | none =>
    exfalso
    exact h (List.getLast?_eq_none_iff.mp hg)
  | some c => rfl

theorem stripList_head?_false (l : List Char) (c : Char)
    (h : (stripList l).head? = some c) : c.isWhitespace = false := by
  unfold stripList at h
  rw [List.head?_reverse] at h
  have hz : (l.dropWhile Char.isWhitespace).reverse.dropWhile Char.isWhitespace ≠ [] := by
    intro hz
    rw [hz] at h
    simp at h
  rw [getLast?_dropWhile_of_ne_nil _ _ hz, List.getLast?_reverse] at h
  exact dropWhile_head?_false _ _ c h

theorem stripList_getLast?_false (l : List Char) (c : Char)
    (h : (stripList l).getLast? = some c) : c.isWhitespace = false := by
  unfold stripList at h
  rw [List.getLast?_reverse] at h
  exact dropWhile_head?_false _ _ c h

theorem stripList_idem (l : List Char) : stripList (stripList l) = stripList l := by
  have h1 : (stripList l).dropWhile Char.isWhitespace = stripList l :=
    dropWhile_eq_self_of_head? _ _ (stripList_head?_false l)
  have h2 : (stripList l).reverse.dropWhile Char.isWhitespace = (stripList l).reverse := by
    apply dropWhile_eq_self_of_head?
    intro c hc
    rw [List.head?_reverse] at hc
    exact stripList_getLast?_false l c hc
  show ((((stripList l).dropWhile Char.isWhitespace).reverse).dropWhile
      Char.isWhitespace).reverse = stripList l
  rw [h1, h2, List.reverse_reverse]

theorem stripList_map_toUpper (l : List Char) :
    stripList (l.map Char.toUpper) = (stripList l).map Char.toUpper := by
  have hpred : (Char.isWhitespace ∘ Char.toUpper) = Char.isWhitespace :=
    funext isWhitespace_toUpper
  unfold stripList
  rw [List.dropWhile_map, hpred, ← List.map_reverse, List.dropWhile_map, hpred,
    ← List.map_reverse]

theorem map_toUpper_idem (l : List Char) :
    (l.map Char.toUpper).map Char.toUpper = l.map Char.toUpper := by
  rw [List.map_map]
  exact List.map_congr_left (fun a _ => toUpper_idem a)

/-! ### String-level normalization lemmas -/

theorem pyUpper_pyStrip (s : String) : pyUpper (pyStrip s) = pyStrip (pyUpper s) :=
  congrArg String.mk (stripList_map_toUpper s.data).symm

theorem pyUpper_idem (s : String) : pyUpper (pyUpper s) = pyUpper s :=
  congrArg String.mk (map_toUpper_idem s.data)

theorem pyStrip_idem (s : String) : pyStrip (pyStrip s) = pyStrip s :=
  congrArg String.mk (stripList_idem s.data)

theorem pyUpper_normalize_vin (s : String) :
    pyUpper (normalize_vin s) = normalize_vin s := by
  unfold normalize_vin
  rw [pyUpper_pyStrip, pyUpper_idem]

theorem pyStrip_normalize_vin (s : String) :
    pyStrip (normalize_vin s) = normalize_vin s := by
  unfold normalize_vin
  rw [pyStrip_idem]

theorem normalize_vin_idem (s : String) :
    normalize_vin (normalize_vin s) = normalize_vin s := by
  conv_lhs => rw [normalize_vin]
  rw [pyUpper_normalize_vin, pyStrip_normalize_vin]

theorem length_pyUpper (s : String) : (pyUpper s).length = s.length := by
  show (s.data.map Char.toUpper).length = s.data.length
  exact List.length_map s.data Char.toUpper

theorem length_pyStrip_le (s : String) : (pyStrip s).length ≤ s.length := by
  show (stripList s.data).length ≤ s.data.length
  unfold stripList
  rw [List.length_reverse]
  calc (((s.data.dropWhile Char.isWhitespace).reverse).dropWhile Char.isWhitespace).length
      ≤ (s.data.dropWhile Char.isWhitespace).reverse.length :=
        (List.dropWhile_suffix _).sublist.length_le
    _ = (s.data.dropWhile Char.isWhitespace).length := List.length_reverse _
    _ ≤ s.data.length := (List.dropWhile_suffix _).sublist.length_le

theorem length_normalize_vin_le (s : String) : (normalize_vin s).length ≤ s.length := by
  unfold normalize_vin
  calc (pyStrip (pyUpper s)).length ≤ (pyUpper s).length := length_pyStrip_le _
    _ = s.length := length_pyUpper _

/-! ## Data model

`Vehicle` is the row type of the `vehicles` table (`app/models.py`).  The
column declarations there are `vin` primary key and `nullable=False` on every
other column except `description`. -/

/-- A committed row of the `vehicles` table. -/
structure Vehicle where
  vin : String
  manufacturer_name : String
  description : Option String
  horse_power : Int
  model_name : String
  model_year : Int
  purchase_price : Rat
  fuel_type : String
deriving DecidableEq

/-- The raw JSON body of a `POST /vehicle` request (fields already of the
declared primitive types; type-level coercion failures are not modelled). -/
structure CreatePayload where
  vin : String
  manufacturer_name : String
  description : Option String
  horse_power : Int
  model_name : String
  model_year : Int
  purchase_price : Rat
  fuel_type : String
deriving DecidableEq

/-- The validated `VehicleCreate` schema (`app/schemas.py`); its `vin` has been
normalized by `validate_vin`. -/
structure VehicleCreate where
  vin : String
  manufacturer_name : String
  description : Option String
  horse_power : Int
  model_name : String
  model_year : Int
  purchase_price : Rat
  fuel_type : String
deriving DecidableEq

/-! ## Validation layer (`app/schemas.py`)

Pydantic validates every field and collects one message per invalid field.
Constraints are taken from the `Field(...)` declarations of `VehicleBase`,
`VehicleCreate` and `VehicleUpdate`. -/

def minLengthMsg (n : Nat) : String :=
  "String should have at least " ++ toString n ++ " characters"

def maxLengthMsg (n : Nat) : String :=
  "String should have at most " ++ toString n ++ " characters"

/-- `Field(..., min_length=lo, max_length=hi)` on a required string. -/
def strError (lo hi : Nat) (s : String) : Option String :=
  if s.length < lo then some (minLengthMsg lo)
  else if hi < s.length then some (maxLengthMsg hi)
  else none

/-- `Field(None, max_length=hi)` on an optional string. -/
def optStrError (hi : Nat) : Option String → Option String
  | none => none
  | some s => if hi < s.length then some (maxLengthMsg hi) else none

/-- `Field(..., gt=0)` on an integer. -/
def gtIntError (bound x : Int) : Option String :=
  if x ≤ bound then some ("Input should be greater than " ++ toString bound) else none

/-- `Field(..., ge=lo, le=hi)` on an integer. -/
def rangeIntError (lo hi x : Int) : Option String :=
  if x < lo then some ("Input should be greater than or equal to " ++ toString lo)
  else if hi < x then some ("Input should be less than or equal to " ++ toString hi)
  else none

/-- `Field(..., gt=0.0)` on a float. -/
def gtRatError (x : Rat) : Option String :=
  if x ≤ 0 then some "Input should be greater than 0" else none

/-- The `vin` field of `VehicleCreate`: `Field(..., min_length=1, max_length=17)`
followed by the `validate_vin` after-validator, which rejects a VIN that is
empty after stripping. -/
def vinFieldError (v : String) : Option String :=
  match strError 1 17 v with
  | some m => some m
  | none =>
    if (pyStrip v).length = 0 then some "Value error, VIN cannot be empty" else none

/-- One `(field, message)` entry when the field is invalid, nothing otherwise. -/
def fieldErrs (k : String) : Option String → List (String × String)
  | some m => [(k, m)]
  | none => []

/-- All field errors of a create payload, one entry per invalid field, in model
field order (the `VehicleBase` fields, then `vin`). -/
def createErrors (p : CreatePayload) : List (String × String) :=
  fieldErrs "manufacturer_name" (strError 1 100 p.manufacturer_name) ++
  fieldErrs "description" (optStrError 500 p.description) ++
  fieldErrs "horse_power" (gtIntError 0 p.horse_power) ++
  fieldErrs "model_name" (strError 1 100 p.model_name) ++
  fieldErrs "model_year" (rangeIntError 1900 2100 p.model_year) ++
  fieldErrs "purchase_price" (gtRatError p.purchase_price) ++
  fieldErrs "fuel_type" (strError 1 50 p.fuel_type) ++
  fieldErrs "vin" (vinFieldError p.vin)

/-- Pydantic validation of `VehicleCreate`: either the aggregated error map or
the validated schema, whose `vin` is the output of `validate_vin`
(`v.upper().strip()`). -/
def validateCreate (p : CreatePayload) : Except (List (String × String)) VehicleCreate :=
  if createErrors p = [] then
    .ok { vin := normalize_vin p.vin, manufacturer_name := p.manufacturer_name,
          description := p.description, horse_power := p.horse_power,
          model_name := p.model_name, model_year := p.model_year,
          purchase_price := p.purchase_price, fuel_type := p.fuel_type }
  else .error (createErrors p)

/-- The `VehicleUpdate` schema.  Every field is `Optional[...] = Field(None, ...)`
and the handler dumps it with `exclude_unset=True`: the outer `Option` is
whether the field was present in the request body at all, the inner `Option`
is JSON `null` (which pydantic accepts for every field, since each is
`Optional`). -/
structure VehicleUpdate where
  manufacturer_name : Option (Option String) := none
  description : Option (Option String) := none
  horse_power : Option (Option Int) := none
  model_name : Option (Option String) := none
  model_year : Option (Option Int) := none
  purchase_price : Option (Option Rat) := none
  fuel_type : Option (Option String) := none
deriving DecidableEq

/-- Field errors of an update body: each constraint applies only when the field
is present with a non-null value. -/
def updateErrors (u : VehicleUpdate) : List (String × String) :=
  fieldErrs "manufacturer_name"
    (match u.manufacturer_name with | some (some s) => strError 1 100 s | _ => none) ++
  fieldErrs "description"
    (match u.description with | some (some s) => optStrError 500 (some s) | _ => none) ++
  fieldErrs "horse_power"
    (match u.horse_power with | some (some x) => gtIntError 0 x | _ => none) ++
  fieldErrs "model_name"
    (match u.model_name with | some (some s) => strError 1 100 s | _ => none) ++
  fieldErrs "model_year"
    (match u.model_year with | some (some x) => rangeIntError 1900 2100 x | _ => none) ++
  fieldErrs "purchase_price"
    (match u.purchase_price with | some (some x) => gtRatError x | _ => none) ++
  fieldErrs "fuel_type"
    (match u.fuel_type with | some (some s) => strError 1 50 s | _ => none)

/-! ## Rows in flight and the store's constraints

`update_vehicle` mutates the loaded ORM row with `setattr` for every key in
`model_dump(exclude_unset=True)`, so a column can transiently hold `NULL`.
`VehicleRow` is such an in-memory row; `commitRow` is the store's commit-time
check of the `nullable=False` declarations of `app/models.py` (a violation
raises `IntegrityError`, which the handler catches). -/

structure VehicleRow where
  vin : String
  manufacturer_name : Option String
  description : Option String
  horse_power : Option Int
  model_name : Option String
  model_year : Option Int
  purchase_price : Option Rat
  fuel_type : Option String
deriving DecidableEq

/-- The `setattr` loop of `update_vehicle`: overwrite exactly the fields present
in `model_dump(exclude_unset=True)`. -/
def applyUpdate (v : Vehicle) (u : VehicleUpdate) : VehicleRow :=
  { vin := v.vin
    manufacturer_name := u.manufacturer_name.getD (some v.manufacturer_name)
    description := u.description.getD v.description
    horse_power := u.horse_power.getD (some v.horse_power)
    model_name := u.model_name.getD (some v.model_name)
    model_year := u.model_year.getD (some v.model_year)
    purchase_price := u.purchase_price.getD (some v.purchase_price)
    fuel_type := u.fuel_type.getD (some v.fuel_type) }

/-- Commit-time check of the `nullable=False` columns: `none` models
`IntegrityError`. -/
def commitRow (r : VehicleRow) : Option Vehicle :=
  match r.manufacturer_name, r.horse_power, r.model_name, r.model_year,
      r.purchase_price, r.fuel_type with
  | some mn, some hp, some mo, some my, some pp, some ft =>
    some { vin := r.vin, manufacturer_name := mn, description := r.description,
           horse_power := hp, model_name := mo, model_year := my,
           purchase_price := pp, fuel_type := ft }
  | _, _, _, _, _, _ => none

/-! ## Responses

`HTTPException(status, detail)` is rendered by FastAPI's default handler as
`{"detail": <detail>}`; the `RequestValidationError` handler in `app/main.py`
builds its `JSONResponse` bodies directly. -/

/-- The possible response body shapes. `detailErrors m` is
`{"detail": {"errors": m}}` (an `HTTPException` whose `detail` is an errors
dict), while `errors m` is a top-level `{"errors": m}`. -/
inductive Body where
  | entity (v : Vehicle)
  | entityList (vs : List Vehicle)
  | empty
  | detailMsg (msg : String)
  | detailErrors (errs : List (String × String))
  | errors (errs : List (String × String))
deriving DecidableEq

structure HttpResponse where
  status : Nat
  body : Body
deriving DecidableEq

def duplicateVinMsg : String := "Vehicle with this VIN already exists"

def updateConflictMsg : String := "Update would violate unique constraint"

def notFoundMsg : String := "Vehicle not found"

def invalidJsonMsg : String := "Invalid JSON format"

/-- The response of both duplicate-VIN branches of `create_vehicle`. -/
def duplicateVinResponse : HttpResponse :=
  ⟨422, .detailErrors [("vin", duplicateVinMsg)]⟩

/-! ## Persistence and handlers (`app/main.py`)

The store is the list of committed rows in insertion order. -/

abbrev Store := List Vehicle

/-- `db.query(Vehicle).filter(Vehicle.vin == vin).first()`. -/
def findByVin (db : Store) (vin : String) : Option Vehicle :=
  db.find? (fun v => v.vin == vin)

/-- `GET /vehicle`. -/
def list_vehicles (db : Store) : HttpResponse := ⟨200, .entityList db⟩

/-- The `Vehicle(...)` constructor call inside `create_vehicle`. -/
def mkVehicle (vin_upper : String) (vehicle : VehicleCreate) : Vehicle :=
  { vin := vin_upper, manufacturer_name := vehicle.manufacturer_name,
    description := vehicle.description, horse_power := vehicle.horse_power,
    model_name := vehicle.model_name, model_year := vehicle.model_year,
    purchase_price := vehicle.purchase_price, fuel_type := vehicle.fuel_type }

/-- `create_vehicle`, with the duplicate pre-check and the commit observing
possibly different store snapshots: `dbCheck` is what the pre-check query sees
and `dbCommit` is the store at commit time.  This models the race window the
code defends against with its `except IntegrityError` branch (the primary key
on `vin` is checked by the store at commit).  The sequential handler is the
diagonal `create_vehicle`. -/
def create_vehicle_racy (vehicle : VehicleCreate) (dbCheck dbCommit : Store) :
    HttpResponse × Store :=
  let vin_upper := normalize_vin vehicle.vin
  match findByVin dbCheck vin_upper with
  | some _ => (duplicateVinResponse, dbCommit)
  | none =>
    let new_vehicle := mkVehicle vin_upper vehicle
    if (findByVin dbCommit vin_upper).isSome then
      (duplicateVinResponse, dbCommit)
    else
      (⟨201, .entity new_vehicle⟩, dbCommit ++ [new_vehicle])

/-- `POST /vehicle` handler body (after validation). -/
def create_vehicle (vehicle : VehicleCreate) (db : Store) : HttpResponse × Store :=
  create_vehicle_racy vehicle db db

/-- `GET /vehicle/{vin}`. -/
def get_vehicle (vin : String) (db : Store) : HttpResponse :=
  match findByVin db (normalize_vin vin) with
  | some vehicle => ⟨200, .entity vehicle⟩
  | none => ⟨404, .detailMsg notFoundMsg⟩

/-- `PUT /vehicle/{vin}` handler body (after validation of the update schema). -/
def update_vehicle (vin : String) (vehicle_update : VehicleUpdate) (db : Store) :
    HttpResponse × Store :=
  let vin_upper := normalize_vin vin
  match findByVin db vin_upper with
  | none => (⟨404, .detailMsg notFoundMsg⟩, db)
  | some vehicle =>
    match commitRow (applyUpdate vehicle vehicle_update) with
    | none => (⟨422, .detailErrors [("vin", updateConflictMsg)]⟩, db)
    | some updated =>
      (⟨200, .entity updated⟩, db.map (fun w => if w.vin == vin_upper then updated else w))

/-- `DELETE /vehicle/{vin}`. -/
def delete_vehicle (vin : String) (db : Store) : HttpResponse × Store :=
  let vin_upper := normalize_vin vin
  match findByVin db vin_upper with
  | none => (⟨404, .detailMsg notFoundMsg⟩, db)
  | some _ => (⟨204, .empty⟩, db.eraseP (fun w => w.vin == vin_upper))

/-- A request body as received on the wire: unparseable, or parsed JSON. -/
inductive RequestBody (α : Type) where
  | malformed
  | json (payload : α)

/-- Full `POST /vehicle` pipeline: JSON parsing, pydantic validation (errors
shaped by `handle_validation_error`), then the handler. -/
def postVehicle (req : RequestBody CreatePayload) (db : Store) : HttpResponse × Store :=
  match req with
  | .malformed => (⟨400, .detailMsg invalidJsonMsg⟩, db)
  | .json p =>
    match validateCreate p with
    | .error errs => (⟨422, .errors errs⟩, db)
    | .ok vc => create_vehicle vc db

/-- Full `PUT /vehicle/{vin}` pipeline. -/
def putVehicle (vin : String) (req : RequestBody VehicleUpdate) (db : Store) :
    HttpResponse × Store :=
  match req with
  | .malformed => (⟨400, .detailMsg invalidJsonMsg⟩, db)
  | .json u =>
    if updateErrors u = [] then update_vehicle vin u db
    else (⟨422, .errors (updateErrors u)⟩, db)

/-! ## Store invariant -/

/-- Canonical form of a stored VIN: uppercase, stripped, at most 17 characters. -/
def canonicalVin (s : String) : Prop :=
  pyUpper s = s ∧ pyStrip s = s ∧ s.length ≤ 17

/-- Store invariant: every row's VIN is canonical and VINs are pairwise
distinct (the primary key), which over canonical VINs is exactly
case-insensitive uniqueness. -/
def storeInv (db : Store) : Prop :=
  (∀ v ∈ db, canonicalVin v.vin) ∧ (db.map Vehicle.vin).Nodup

instance canonicalVinDecidable (s : String) : Decidable (canonicalVin s) := by
  unfold canonicalVin
  exact inferInstance

instance storeInvDecidable (db : Store) : Decidable (storeInv db) := by
  unfold storeInv
  exact inferInstance

/-! ## Lookup lemmas -/

theorem findByVin_eq_none_iff {db : Store} {vin : String} :
    findByVin db vin = none ↔ ∀ v ∈ db, v.vin ≠ vin := by
  unfold findByVin
  rw [List.find?_eq_none]
  constructor
  · intro h v hv
    have := h v hv
    simpa using this
  · intro h v hv
    simpa using h v hv

theorem findByVin_mem {db : Store} {vin : String} {v : Vehicle}
    (h : findByVin db vin = some v) : v ∈ db :=
  List.mem_of_find?_eq_some h

theorem findByVin_vin {db : Store} {vin : String} {v : Vehicle}
    (h : findByVin db vin = some v) : v.vin = vin := by
  have := List.find?_some h
  simpa using this

theorem findByVin_of_mem {db : Store} {v : Vehicle}
    (hnd : (db.map Vehicle.vin).Nodup) (hv : v ∈ db) :
    findByVin db v.vin = some v := by
  induction db with
  | nil => cases hv
  | cons w t ih =>
    rw [List.map_cons, List.nodup_cons] at hnd
    cases List.mem_cons.mp hv with
    | inl h =>
      subst h
      exact List.find?_cons_of_pos _ (by simp)
    | inr h =>
      have hne : w.vin ≠ v.vin := by
        intro he
        exact hnd.1 (he ▸ List.mem_map_of_mem Vehicle.vin h)
      unfold findByVin
      rw [List.find?_cons_of_neg _ (by simpa using hne)]
      exact ih hnd.2 h

theorem findByVin_replace {db : Store} {vin : String} {v updated : Vehicle}
    (h : findByVin db vin = some v) (hu : updated.vin = vin) :
    findByVin (db.map fun w => if w.vin == vin then updated else w) vin = some updated := by
  induction db with
  | nil => simp [findByVin] at h
  | cons w t ih =>
    by_cases hw : w.vin = vin
    · unfold findByVin
      rw [List.map_cons, if_pos (by simpa using hw)]
      exact List.find?_cons_of_pos _ (by simpa using hu)
    · unfold findByVin at h ⊢
      rw [List.find?_cons_of_neg _ (by simpa using hw)] at h
      rw [List.map_cons, if_neg (by simpa using hw),
        List.find?_cons_of_neg _ (by simpa using hw)]
      exact ih h

theorem findByVin_eraseP {db : Store} {vin : String}
    (hnd : (db.map Vehicle.vin).Nodup) :
    findByVin (db.eraseP (fun w => w.vin == vin)) vin = none := by
  induction db with
  | nil => rfl
  | cons w t ih =>
    rw [List.map_cons, List.nodup_cons] at hnd
    by_cases hw : w.vin = vin
    · rw [List.eraseP_cons_of_pos (by simpa using hw)]
      rw [findByVin_eq_none_iff]
      intro x hx he
      exact hnd.1 (by rw [hw, ← he]; exact List.mem_map_of_mem Vehicle.vin hx)
    · rw [List.eraseP_cons_of_neg (by simpa using hw)]
      unfold findByVin
      rw [List.find?_cons_of_neg _ (by simpa using hw)]
      exact ih hnd.2

/-! ## Validation lemmas -/

theorem validateCreate_ok {p : CreatePayload} {vc : VehicleCreate}
    (h : validateCreate p = .ok vc) :
    vc.vin = normalize_vin p.vin ∧ p.vin.length ≤ 17 := by
  unfold validateCreate at h
  split at h
  · next he =>
    injection h with h
    subst h
    refine ⟨rfl, ?_⟩
    simp only [createErrors, List.append_eq_nil] at he
    have hvin : fieldErrs "vin" (vinFieldError p.vin) = [] := he.2
    unfold vinFieldError at hvin
    rcases hs : strError 1 17 p.vin with _ | m
    · unfold strError at hs
      split at hs
      · exact absurd hs (by simp)
      · next h1 =>
        split at hs
        · exact absurd hs (by simp)
        · next h2 => omega
    · rw [hs] at hvin
      exact absurd hvin (by simp [fieldErrs])
  · exact absurd h (by simp)

theorem canonicalVin_normalize {s : String} (h : s.length ≤ 17) :
    canonicalVin (normalize_vin s) :=
  ⟨pyUpper_normalize_vin s, pyStrip_normalize_vin s,
    le_trans (length_normalize_vin_le s) h⟩

/-! ## Row-level lemmas -/

theorem applyUpdate_vin (v : Vehicle) (u : VehicleUpdate) :
    (applyUpdate v u).vin = v.vin := rfl

theorem commitRow_vin {r : VehicleRow} {v : Vehicle} (h : commitRow r = some v) :
    v.vin = r.vin := by
  unfold commitRow at h
  split at h
  · injection h with h
    subst h
    rfl
  · exact absurd h (by simp)

/-- When no explicitly-present field is set to `null` (the nullable
`description` excepted), the commit of an updated row succeeds. -/
theorem commitRow_applyUpdate_of_nonNull (v : Vehicle) (u : VehicleUpdate)
    (h1 : u.manufacturer_name ≠ some none) (h2 : u.horse_power ≠ some none)
    (h3 : u.model_name ≠ some none) (h4 : u.model_year ≠ some none)
    (h5 : u.purchase_price ≠ some none) (h6 : u.fuel_type ≠ some none) :
    ∃ v', commitRow (applyUpdate v u) = some v' := by
  unfold commitRow applyUpdate
  rcases hmn : u.manufacturer_name with _ | (_ | mn) <;>
    rcases hhp : u.horse_power with _ | (_ | hp) <;>
      rcases hmo : u.model_name with _ | (_ | mo) <;>
        rcases hmy : u.model_year with _ | (_ | my) <;>
          rcases hpp : u.purchase_price with _ | (_ | pp) <;>
            rcases hft : u.fuel_type with _ | (_ | ft) <;>
              simp_all

/-! ## Invariant preservation -/

theorem storeInv_create_vehicle {db : Store} {vc : VehicleCreate}
    (hinv : storeInv db) (hc : canonicalVin (normalize_vin vc.vin)) :
    storeInv (create_vehicle vc db).2 := by
  unfold create_vehicle create_vehicle_racy
  cases hfind : findByVin db (normalize_vin vc.vin) with
  | some w => simpa [hfind] using hinv
  | none =>
    simp only [hfind, Option.isSome_none, Bool.false_eq_true, if_false]
    constructor
    · intro v hv
      cases List.mem_append.mp hv with
      | inl h => exact hinv.1 v h
      | inr h =>
        have : v = mkVehicle (normalize_vin vc.vin) vc := by simpa using h
        subst this
        exact hc
    · rw [List.map_append]
      have hnotin : (mkVehicle (normalize_vin vc.vin) vc).vin ∉ db.map Vehicle.vin := by
        intro hmem
        obtain ⟨w, hw, hwe⟩ := List.mem_map.mp hmem
        exact findByVin_eq_none_iff.mp hfind w hw hwe
      simp only [List.map_cons, List.map_nil]
      exact List.Nodup.append hinv.2 (List.nodup_singleton _)
        (by simpa [List.disjoint_singleton] using hnotin)

theorem storeInv_update_vehicle {db : Store} {vin : String} {u : VehicleUpdate}
    (hinv : storeInv db) : storeInv (update_vehicle vin u db).2 := by
  unfold update_vehicle
  cases hfind : findByVin db (normalize_vin vin) with
  | none => simpa [hfind] using hinv
  | some v =>
    cases hcommit : commitRow (applyUpdate v u) with
    | none => simpa [hfind, hcommit] using hinv
    | some updated =>
      simp only [hfind, hcommit]
      have hvin : updated.vin = v.vin := commitRow_vin hcommit
      have hvv : v.vin = normalize_vin vin := findByVin_vin hfind
      constructor
      · intro w' hw'
        obtain ⟨w, hw, hwe⟩ := List.mem_map.mp hw'
        by_cases hcase : w.vin = normalize_vin vin
        · rw [if_pos (by simpa using hcase)] at hwe
          subst hwe
          rw [hvin, hvv, ← hcase]
          exact hinv.1 w hw
        · rw [if_neg (by simpa using hcase)] at hwe
          subst hwe
          exact hinv.1 w hw
      · have hmap : (db.map fun w =>
            if w.vin == normalize_vin vin then updated else w).map Vehicle.vin
            = db.map Vehicle.vin := by
          rw [List.map_map]
          apply List.map_congr_left
          intro w _
          by_cases hcase : w.vin = normalize_vin vin
          · simp only [Function.comp]
            rw [if_pos (by simpa using hcase), hvin, hvv, hcase]
          · simp only [Function.comp]
            rw [if_neg (by simpa using hcase)]
        rw [hmap]
        exact hinv.2

theorem storeInv_delete_vehicle {db : Store} {vin : String}
    (hinv : storeInv db) : storeInv (delete_vehicle vin db).2 := by
  unfold delete_vehicle
  cases hfind : findByVin db (normalize_vin vin) with
  | none => simpa [hfind] using hinv
  | some v =>
    simp only [hfind]
    constructor
    · intro w hw
      exact hinv.1 w (List.eraseP_subset _ hw)
    · exact hinv.2.sublist ((List.eraseP_sublist db).map Vehicle.vin)

/-! ## Further handler-level helper lemmas -/

theorem commitRow_fields {r : VehicleRow} {v' : Vehicle} (h : commitRow r = some v') :
    some v'.manufacturer_name = r.manufacturer_name ∧ v'.description = r.description ∧
    some v'.horse_power = r.horse_power ∧ some v'.model_name = r.model_name ∧
    some v'.model_year = r.model_year ∧ some v'.purchase_price = r.purchase_price ∧
    some v'.fuel_type = r.fuel_type := by
  unfold commitRow at h
  split at h
  · next hmn hhp hmo hmy hpp hft =>
    injection h with h
    subst h
    exact ⟨hmn.symm, rfl, hhp.symm, hmo.symm, hmy.symm, hpp.symm, hft.symm⟩
  · exact absurd h (by simp)

/-- `update_vehicle` never changes any stored VIN (the update schema has no
`vin` field, so the `setattr` loop cannot touch it). -/
theorem update_vehicle_vins (r : String) (u : VehicleUpdate) (db : Store) :
    ((update_vehicle r u db).2).map Vehicle.vin = db.map Vehicle.vin := by
  unfold update_vehicle
  cases hfind : findByVin db (normalize_vin r) with
  | none => simp [hfind]
  | some v =>
    cases hcommit : commitRow (applyUpdate v u) with
    | none => simp [hfind, hcommit]
    | some updated =>
      simp only [hfind, hcommit]
      have hvin : updated.vin = v.vin := commitRow_vin hcommit
      have hvv : v.vin = normalize_vin r := findByVin_vin hfind
      rw [List.map_map]
      apply List.map_congr_left
      intro w _
      by_cases hcase : w.vin = normalize_vin r
      · simp only [Function.comp]
        rw [if_pos (by simpa using hcase), hvin, hvv, hcase]
      · simp only [Function.comp]
        rw [if_neg (by simpa using hcase)]

theorem normalize_vin_eq_of_pyUpper_eq {s t : String} (h : pyUpper s = pyUpper t) :
    normalize_vin s = normalize_vin t := by
  unfold normalize_vin
  rw [h]

theorem createErrors_keys_nodup (p : CreatePayload) :
    ((createErrors p).map Prod.fst).Nodup := by
  have hblock : ∀ (k : String) (o : Option String),
      List.Sublist ((fieldErrs k o).map Prod.fst) [k] := by
    intro k o
    cases o with
    | none => exact List.nil_sublist _
    | some m => exact List.Sublist.refl _
  have hsub : List.Sublist ((createErrors p).map Prod.fst)
      ["manufacturer_name", "description", "horse_power", "model_name",
       "model_year", "purchase_price", "fuel_type", "vin"] := by
    unfold createErrors
    simp only [List.map_append]
    exact ((((((((hblock _ _).append (hblock _ _)).append (hblock _ _)).append
      (hblock _ _)).append (hblock _ _)).append (hblock _ _)).append
      (hblock _ _)).append (hblock _ _))
  exact (by decide :
    (["manufacturer_name", "description", "horse_power", "model_name",
      "model_year", "purchase_price", "fuel_type", "vin"] :
        List String).Nodup).sublist hsub

/-! ## Sample data (the scenario of the spec's testable properties) -/

def hondaPayload : CreatePayload :=
  { vin := "1hgbh41jxmn109186", manufacturer_name := "Honda",
    description := some "A reliable sedan", horse_power := 180,
    model_name := "Accord", model_year := 2020, purchase_price := 25000,
    fuel_type := "Gasoline" }

def hondaCreate : VehicleCreate :=
  { vin := "1HGBH41JXMN109186", manufacturer_name := "Honda",
    description := some "A reliable sedan", horse_power := 180,
    model_name := "Accord", model_year := 2020, purchase_price := 25000,
    fuel_type := "Gasoline" }

def hondaVehicle : Vehicle :=
  { vin := "1HGBH41JXMN109186", manufacturer_name := "Honda",
    description := some "A reliable sedan", horse_power := 180,
    model_name := "Accord", model_year := 2020, purchase_price := 25000,
    fuel_type := "Gasoline" }

/-- The repository test's partial update `{horse_power: 200, purchase_price: 27000.0}`. -/
def hpUpdate : VehicleUpdate :=
  { horse_power := some (some 200), purchase_price := some (some 27000) }

/-- An update whose body is exactly `{"manufacturer_name": null}`: pydantic
accepts it (the field is `Optional`), `exclude_unset` keeps it, and the store
rejects the commit (`manufacturer_name` is `nullable=False`). -/
def nullManufacturerUpdate : VehicleUpdate := { manufacturer_name := some none }

/-! ## Claims -/

/-- C1: for every valid create payload whose canonical VIN is not yet stored,
the create operation succeeds with status 201 and the `vin` of the returned
entity equals the client-supplied VIN uppercased and with surrounding
whitespace stripped. -/
theorem C1_create_returns_normalized_vin
    (p : CreatePayload) (vc : VehicleCreate) (db : Store)
    (hval : validateCreate p = .ok vc)
    (hfresh : findByVin db (normalize_vin p.vin) = none) :
    (postVehicle (.json p) db).1.status = 201 ∧
    ∃ v, (postVehicle (.json p) db).1.body = .entity v ∧
      v.vin = pyStrip (pyUpper p.vin) := by
  have hnn : normalize_vin vc.vin = normalize_vin p.vin := by
    rw [(validateCreate_ok hval).1, normalize_vin_idem]
  have h1 : postVehicle (.json p) db
      = (⟨201, .entity (mkVehicle (normalize_vin p.vin) vc)⟩,
         db ++ [mkVehicle (normalize_vin p.vin) vc]) := by
    simp only [postVehicle, hval, create_vehicle, create_vehicle_racy, hnn, hfresh]
    simp
  rw [h1]
  exact ⟨rfl, mkVehicle (normalize_vin p.vin) vc, rfl, rfl⟩

theorem C1_witness :
    (postVehicle (.json hondaPayload) []).1.status = 201 ∧
    ∃ v, (postVehicle (.json hondaPayload) []).1.body = .entity v ∧
      v.vin = pyStrip (pyUpper hondaPayload.vin) :=
  C1_create_returns_normalized_vin hondaPayload hondaCreate [] rfl rfl

/-- Creating `p` and then `q`, where the two VINs agree up to letter case and
`p`'s canonical VIN is fresh, yields a 201 and then the duplicate-VIN
conflict. -/
theorem create_create_conflict_aux
    (p q : CreatePayload) (vp vq : VehicleCreate) (db : Store)
    (hvp : validateCreate p = .ok vp) (hvq : validateCreate q = .ok vq)
    (hcase : pyUpper p.vin = pyUpper q.vin)
    (hfresh : findByVin db (normalize_vin p.vin) = none) :
    (postVehicle (.json p) db).1.status = 201 ∧
    (postVehicle (.json q) (postVehicle (.json p) db).2).1 = duplicateVinResponse := by
  have hnp : normalize_vin vp.vin = normalize_vin p.vin := by
    rw [(validateCreate_ok hvp).1, normalize_vin_idem]
  have hnq : normalize_vin vq.vin = normalize_vin p.vin := by
    rw [(validateCreate_ok hvq).1, normalize_vin_idem,
      ← normalize_vin_eq_of_pyUpper_eq hcase]
  have h1 : postVehicle (.json p) db
      = (⟨201, .entity (mkVehicle (normalize_vin p.vin) vp)⟩,
         db ++ [mkVehicle (normalize_vin p.vin) vp]) := by
    simp only [postVehicle, hvp, create_vehicle, create_vehicle_racy, hnp, hfresh]
    simp
  rw [h1]
  refine ⟨rfl, ?_⟩
  have hfind : findByVin (db ++ [mkVehicle (normalize_vin p.vin) vp])
      (normalize_vin p.vin) = some (mkVehicle (normalize_vin p.vin) vp) := by
    unfold findByVin at hfresh ⊢
    rw [List.find?_append, hfresh]
    simp [mkVehicle]
  simp only [postVehicle, hvq, create_vehicle, create_vehicle_racy, hnq, hfind]

/-- C2: for two otherwise-valid create requests whose VINs differ only by
letter case, against a store not containing that VIN, the first call succeeds
with 201 and the second receives the duplicate-VIN conflict — in either call
order. -/
theorem C2_case_insensitive_create_conflict
    (p1 p2 : CreatePayload) (v1 v2 : VehicleCreate) (db : Store)
    (hv1 : validateCreate p1 = .ok v1) (hv2 : validateCreate p2 = .ok v2)
    (hcase : pyUpper p1.vin = pyUpper p2.vin)
    (hfresh : findByVin db (normalize_vin p1.vin) = none) :
    ((postVehicle (.json p1) db).1.status = 201 ∧
      (postVehicle (.json p2) (postVehicle (.json p1) db).2).1
        = duplicateVinResponse) ∧
    ((postVehicle (.json p2) db).1.status = 201 ∧
      (postVehicle (.json p1) (postVehicle (.json p2) db).2).1
        = duplicateVinResponse) := by
  have hfresh2 : findByVin db (normalize_vin p2.vin) = none := by
    rw [← normalize_vin_eq_of_pyUpper_eq hcase]
    exact hfresh
  exact ⟨create_create_conflict_aux p1 p2 v1 v2 db hv1 hv2 hcase hfresh,
    create_create_conflict_aux p2 p1 v2 v1 db hv2 hv1 hcase.symm hfresh2⟩

/-- The same create payload with the VIN already uppercase. -/
def hondaPayloadUpper : CreatePayload :=
  { hondaPayload with vin := "1HGBH41JXMN109186" }

theorem C2_witness :
    (((postVehicle (.json hondaPayload) []).1.status = 201 ∧
      (postVehicle (.json hondaPayloadUpper) (postVehicle (.json hondaPayload) []).2).1
        = duplicateVinResponse) ∧
    ((postVehicle (.json hondaPayloadUpper) []).1.status = 201 ∧
      (postVehicle (.json hondaPayload) (postVehicle (.json hondaPayloadUpper) []).2).1
        = duplicateVinResponse)) :=
  C2_case_insensitive_create_conflict hondaPayload hondaPayloadUpper
    hondaCreate hondaCreate [] rfl rfl rfl rfl

/-- C3 counterexample: on a duplicate create the response body is the
`HTTPException` rendering `{"detail": {"errors": {"vin": ...}}}`, which is not
the claimed top-level `{"errors": {"vin": ...}}` shape. -/
theorem C3_counterexample_body_shape :
    (create_vehicle hondaCreate [hondaVehicle]).1
        = ⟨422, Body.detailErrors [("vin", duplicateVinMsg)]⟩ ∧
    (⟨422, Body.detailErrors [("vin", duplicateVinMsg)]⟩ : HttpResponse)
        ≠ ⟨422, Body.errors [("vin", duplicateVinMsg)]⟩ := by
  constructor
  · rfl
  · intro h
    injection h with _ h
    exact absurd h (by simp)

/-- C3 (amended): a create whose canonical VIN is a duplicate — found either by
the pre-check or by the store's uniqueness constraint at commit time — returns
422 with body `{"detail": {"errors": {"vin": <duplicate message>}}}` and
leaves the store unchanged. -/
theorem C3_duplicate_create_response_shape
    (vc : VehicleCreate) (dbCheck dbCommit : Store)
    (hdup : (findByVin dbCheck (normalize_vin vc.vin)).isSome ∨
      (findByVin dbCommit (normalize_vin vc.vin)).isSome) :
    create_vehicle_racy vc dbCheck dbCommit
      = (⟨422, .detailErrors [("vin", duplicateVinMsg)]⟩, dbCommit) := by
  unfold create_vehicle_racy
  cases hc : findByVin dbCheck (normalize_vin vc.vin) with
  | some w => simp [hc, duplicateVinResponse]
  | none =>
    rcases hdup with h | h
    · rw [hc] at h
      simp at h
    · simp [hc, h, duplicateVinResponse]

theorem C3_witness :
    create_vehicle_racy hondaCreate [] [hondaVehicle]
      = (⟨422, .detailErrors [("vin", duplicateVinMsg)]⟩, [hondaVehicle]) :=
  C3_duplicate_create_response_shape hondaCreate [] [hondaVehicle]
    (Or.inr (by decide))

/-- C4: for a stored vehicle and any VIN string whose canonical form equals the
stored (canonical) VIN — i.e. differing only by letter case or surrounding
whitespace — get resolves to that row, and update and delete do not return
NotFound (delete returns 204). -/
theorem C4_lookup_case_insensitive
    (db : Store) (v : Vehicle) (r : String) (u : VehicleUpdate)
    (hinv : storeInv db) (hv : v ∈ db) (hr : normalize_vin r = v.vin) :
    get_vehicle r db = ⟨200, .entity v⟩ ∧
    (update_vehicle r u db).1.status ≠ 404 ∧
    (delete_vehicle r db).1.status = 204 := by
  have hfind : findByVin db (normalize_vin r) = some v := by
    rw [hr]
    exact findByVin_of_mem hinv.2 hv
  refine ⟨?_, ?_, ?_⟩
  · unfold get_vehicle
    rw [hfind]
  · unfold update_vehicle
    simp only [hfind]
    cases commitRow (applyUpdate v u) <;> simp
  · unfold delete_vehicle
    simp [hfind]

theorem C4_witness :
    get_vehicle " 1hgbh41jxmn109186" [hondaVehicle] = ⟨200, .entity hondaVehicle⟩ ∧
    (update_vehicle " 1hgbh41jxmn109186" hpUpdate [hondaVehicle]).1.status ≠ 404 ∧
    (delete_vehicle " 1hgbh41jxmn109186" [hondaVehicle]).1.status = 204 :=
  C4_lookup_case_insensitive [hondaVehicle] hondaVehicle " 1hgbh41jxmn109186"
    hpUpdate (by decide) (by decide) (by decide)

/-- C5 counterexample: the update body `{"manufacturer_name": null}` passes
validation (the field is `Optional`), yet the operation returns 422 and leaves
the row unchanged — the explicitly-present field is not applied, because the
store rejects `NULL` in a `nullable=False` column. -/
theorem C5_counterexample_explicit_null :
    updateErrors nullManufacturerUpdate = [] ∧
    (update_vehicle "1HGBH41JXMN109186" nullManufacturerUpdate [hondaVehicle]).1.status
      = 422 ∧
    (update_vehicle "1HGBH41JXMN109186" nullManufacturerUpdate [hondaVehicle]).2
      = [hondaVehicle] :=
  ⟨rfl, rfl, rfl⟩

/-- C5 (amended): for a stored vehicle and a valid update none of whose
explicitly-present fields sets a non-nullable column to null, the update
succeeds and changes exactly the fields explicitly present in the request —
every omitted field keeps its prior value, and an explicit null on the
nullable `description` is applied. -/
theorem C5_partial_update_frame
    (db : Store) (v : Vehicle) (r : String) (u : VehicleUpdate)
    (hinv : storeInv db) (hv : v ∈ db) (hr : normalize_vin r = v.vin)
    (h1 : u.manufacturer_name ≠ some none) (h2 : u.horse_power ≠ some none)
    (h3 : u.model_name ≠ some none) (h4 : u.model_year ≠ some none)
    (h5 : u.purchase_price ≠ some none) (h6 : u.fuel_type ≠ some none) :
    ∃ v', update_vehicle r u db
        = (⟨200, .entity v'⟩,
           db.map fun w => if w.vin == normalize_vin r then v' else w) ∧
      v'.vin = v.vin ∧
      (u.manufacturer_name = none → v'.manufacturer_name = v.manufacturer_name) ∧
      (∀ s, u.manufacturer_name = some (some s) → v'.manufacturer_name = s) ∧
      (u.description = none → v'.description = v.description) ∧
      (∀ d, u.description = some d → v'.description = d) ∧
      (u.horse_power = none → v'.horse_power = v.horse_power) ∧
      (∀ x, u.horse_power = some (some x) → v'.horse_power = x) ∧
      (u.model_name = none → v'.model_name = v.model_name) ∧
      (∀ s, u.model_name = some (some s) → v'.model_name = s) ∧
      (u.model_year = none → v'.model_year = v.model_year) ∧
      (∀ x, u.model_year = some (some x) → v'.model_year = x) ∧
      (u.purchase_price = none → v'.purchase_price = v.purchase_price) ∧
      (∀ x, u.purchase_price = some (some x) → v'.purchase_price = x) ∧
      (u.fuel_type = none → v'.fuel_type = v.fuel_type) ∧
      (∀ s, u.fuel_type = some (some s) → v'.fuel_type = s) := by
  have hfind : findByVin db (normalize_vin r) = some v := by
    rw [hr]
    exact findByVin_of_mem hinv.2 hv
  obtain ⟨v', hcommit⟩ := commitRow_applyUpdate_of_nonNull v u h1 h2 h3 h4 h5 h6
  have happ := commitRow_fields hcommit
  refine ⟨v', ?_, (commitRow_vin hcommit).trans (applyUpdate_vin v u),
    ?_, ?_, ?_, ?_, ?_, ?_, ?_, ?_, ?_, ?_, ?_, ?_, ?_, ?_⟩
  · unfold update_vehicle
    simp only [hfind, hcommit]
  · intro hf
    have h := happ.1
    simp [applyUpdate, hf] at h
    exact h
  · intro s hf
    have h := happ.1
    simp [applyUpdate, hf] at h
    exact h
  · intro hf
    have h := happ.2.1
    simp [applyUpdate, hf] at h
    exact h
  · intro d hf
    have h := happ.2.1
    simp [applyUpdate, hf] at h
    exact h
  · intro hf
    have h := happ.2.2.1
    simp [applyUpdate, hf] at h
    exact h
  · intro x hf
    have h := happ.2.2.1
    simp [applyUpdate, hf] at h
    exact h
  · intro hf
    have h := happ.2.2.2.1
    simp [applyUpdate, hf] at h
    exact h
  · intro s hf
    have h := happ.2.2.2.1
    simp [applyUpdate, hf] at h
    exact h
  · intro hf
    have h := happ.2.2.2.2.1
    simp [applyUpdate, hf] at h
    exact h
  · intro x hf
    have h := happ.2.2.2.2.1
    simp [applyUpdate, hf] at h
    exact h
  · intro hf
    have h := happ.2.2.2.2.2.1
    simp [applyUpdate, hf] at h
    exact h
  · intro x hf
    have h := happ.2.2.2.2.2.1
    simp [applyUpdate, hf] at h
    exact h
  · intro hf
    have h := happ.2.2.2.2.2.2
    simp [applyUpdate, hf] at h
    exact h
  · intro s hf
    have h := happ.2.2.2.2.2.2
    simp [applyUpdate, hf] at h
    exact h

theorem C5_witness :
    ∃ v', update_vehicle "1hgbh41jxmn109186" hpUpdate [hondaVehicle]
        = (⟨200, .entity v'⟩,
           [hondaVehicle].map fun w =>
             if w.vin == normalize_vin "1hgbh41jxmn109186" then v' else w) ∧
      v'.vin = hondaVehicle.vin ∧
      (hpUpdate.manufacturer_name = none →
        v'.manufacturer_name = hondaVehicle.manufacturer_name) ∧
      (∀ s, hpUpdate.manufacturer_name = some (some s) → v'.manufacturer_name = s) ∧
      (hpUpdate.description = none → v'.description = hondaVehicle.description) ∧
      (∀ d, hpUpdate.description = some d → v'.description = d) ∧
      (hpUpdate.horse_power = none → v'.horse_power = hondaVehicle.horse_power) ∧
      (∀ x, hpUpdate.horse_power = some (some x) → v'.horse_power = x) ∧
      (hpUpdate.model_name = none → v'.model_name = hondaVehicle.model_name) ∧
      (∀ s, hpUpdate.model_name = some (some s) → v'.model_name = s) ∧
      (hpUpdate.model_year = none → v'.model_year = hondaVehicle.model_year) ∧
      (∀ x, hpUpdate.model_year = some (some x) → v'.model_year = x) ∧
      (hpUpdate.purchase_price = none →
        v'.purchase_price = hondaVehicle.purchase_price) ∧
      (∀ x, hpUpdate.purchase_price = some (some x) → v'.purchase_price = x) ∧
      (hpUpdate.fuel_type = none → v'.fuel_type = hondaVehicle.fuel_type) ∧
      (∀ s, hpUpdate.fuel_type = some (some s) → v'.fuel_type = s) :=
  C5_partial_update_frame [hondaVehicle] hondaVehicle "1hgbh41jxmn109186" hpUpdate
    (by decide) (by decide) (by decide) (by decide) (by decide) (by decide)
    (by decide) (by decide) (by decide)

/-- C6: each single call to create, update or delete either commits its full
effect — the row created, updated or deleted, and visible to a subsequent
lookup — or returns an error with the stored state unchanged (the rollback). -/
theorem C6_per_call_atomicity
    (vc : VehicleCreate) (r : String) (u : VehicleUpdate) (db : Store)
    (hinv : storeInv db) :
    (((create_vehicle vc db).1.status = 201 ∧
        (create_vehicle vc db).2 = db ++ [mkVehicle (normalize_vin vc.vin) vc] ∧
        findByVin (create_vehicle vc db).2 (normalize_vin vc.vin)
          = some (mkVehicle (normalize_vin vc.vin) vc)) ∨
      ((create_vehicle vc db).1.status = 422 ∧ (create_vehicle vc db).2 = db)) ∧
    ((∃ v v', update_vehicle r u db
          = (⟨200, .entity v'⟩,
             db.map fun w => if w.vin == normalize_vin r then v' else w) ∧
          findByVin db (normalize_vin r) = some v ∧
          commitRow (applyUpdate v u) = some v' ∧
          findByVin (update_vehicle r u db).2 (normalize_vin r) = some v') ∨
      (((update_vehicle r u db).1.status = 404 ∨
          (update_vehicle r u db).1.status = 422) ∧
        (update_vehicle r u db).2 = db)) ∧
    (((delete_vehicle r db).1.status = 204 ∧
        (delete_vehicle r db).2 = db.eraseP (fun w => w.vin == normalize_vin r) ∧
        findByVin (delete_vehicle r db).2 (normalize_vin r) = none) ∨
      ((delete_vehicle r db).1.status = 404 ∧ (delete_vehicle r db).2 = db)) := by
  refine ⟨?_, ?_, ?_⟩
  · cases hfind : findByVin db (normalize_vin vc.vin) with
    | some w =>
      right
      unfold create_vehicle create_vehicle_racy
      simp [hfind, duplicateVinResponse]
    | none =>
      left
      have hc : create_vehicle vc db
          = (⟨201, .entity (mkVehicle (normalize_vin vc.vin) vc)⟩,
             db ++ [mkVehicle (normalize_vin vc.vin) vc]) := by
        unfold create_vehicle create_vehicle_racy
        simp [hfind]
      rw [hc]
      refine ⟨rfl, rfl, ?_⟩
      unfold findByVin at hfind ⊢
      rw [List.find?_append, hfind]
      simp [mkVehicle]
  · cases hfind : findByVin db (normalize_vin r) with
    | none =>
      right
      unfold update_vehicle
      simp [hfind]
    | some v =>
      cases hcommit : commitRow (applyUpdate v u) with
      | none =>
        right
        unfold update_vehicle
        simp [hfind, hcommit]
      | some v' =>
        left
        have hu : update_vehicle r u db
            = (⟨200, .entity v'⟩,
               db.map fun w => if w.vin == normalize_vin r then v' else w) := by
          unfold update_vehicle
          simp only [hfind, hcommit]
        refine ⟨v, v', hu, rfl, hcommit, ?_⟩
        rw [hu]
        exact findByVin_replace hfind
          (((commitRow_vin hcommit).trans (applyUpdate_vin v u)).trans
            (findByVin_vin hfind))
  · cases hfind : findByVin db (normalize_vin r) with
    | none =>
      right
      unfold delete_vehicle
      simp [hfind]
    | some v =>
      left
      have hd : delete_vehicle r db
          = (⟨204, .empty⟩, db.eraseP (fun w => w.vin == normalize_vin r)) := by
        unfold delete_vehicle
        simp only [hfind]
      rw [hd]
      exact ⟨rfl, rfl, findByVin_eraseP hinv.2⟩

theorem C6_witness :
    (((create_vehicle hondaCreate []).1.status = 201 ∧
        (create_vehicle hondaCreate []).2
          = [] ++ [mkVehicle (normalize_vin hondaCreate.vin) hondaCreate] ∧
        findByVin (create_vehicle hondaCreate []).2 (normalize_vin hondaCreate.vin)
          = some (mkVehicle (normalize_vin hondaCreate.vin) hondaCreate)) ∨
      ((create_vehicle hondaCreate []).1.status = 422 ∧
        (create_vehicle hondaCreate []).2 = [])) ∧
    ((∃ v v', update_vehicle "1HGBH41JXMN109186" hpUpdate []
          = (⟨200, .entity v'⟩,
             [].map fun w =>
               if w.vin == normalize_vin "1HGBH41JXMN109186" then v' else w) ∧
          findByVin [] (normalize_vin "1HGBH41JXMN109186") = some v ∧
          commitRow (applyUpdate v hpUpdate) = some v' ∧
          findByVin (update_vehicle "1HGBH41JXMN109186" hpUpdate []).2
            (normalize_vin "1HGBH41JXMN109186") = some v') ∨
      (((update_vehicle "1HGBH41JXMN109186" hpUpdate []).1.status = 404 ∨
          (update_vehicle "1HGBH41JXMN109186" hpUpdate []).1.status = 422) ∧
        (update_vehicle "1HGBH41JXMN109186" hpUpdate []).2 = [])) ∧
    (((delete_vehicle "1HGBH41JXMN109186" []).1.status = 204 ∧
        (delete_vehicle "1HGBH41JXMN109186" []).2
          = [].eraseP (fun w => w.vin == normalize_vin "1HGBH41JXMN109186") ∧
        findByVin (delete_vehicle "1HGBH41JXMN109186" []).2
          (normalize_vin "1HGBH41JXMN109186") = none) ∨
      ((delete_vehicle "1HGBH41JXMN109186" []).1.status = 404 ∧
        (delete_vehicle "1HGBH41JXMN109186" []).2 = [])) :=
  C6_per_call_atomicity hondaCreate "1HGBH41JXMN109186" hpUpdate [] (by decide)

/-! ### Characterization of the per-field error options -/

theorem strError_isSome (lo hi : Nat) (s : String) :
    (strError lo hi s).isSome = true ↔ (s.length < lo ∨ hi < s.length) := by
  unfold strError
  by_cases h1 : s.length < lo
  · rw [if_pos h1]
    simp [h1]
  · rw [if_neg h1]
    by_cases h2 : hi < s.length
    · rw [if_pos h2]
      simp [h2]
    · rw [if_neg h2]
      simp [h1, h2]

theorem optStrError_isSome (hi : Nat) (d : Option String) :
    (optStrError hi d).isSome = true ↔ ∃ s, d = some s ∧ hi < s.length := by
  cases d with
  | none => simp [optStrError]
  | some s =>
    by_cases h : hi < s.length
    · rw [optStrError, if_pos h]
      simp [h]
    · rw [optStrError, if_neg h]
      simp [h]

theorem gtIntError_isSome (bound x : Int) :
    (gtIntError bound x).isSome = true ↔ x ≤ bound := by
  unfold gtIntError
  by_cases h : x ≤ bound
  · rw [if_pos h]
    simp [h]
  · rw [if_neg h]
    simp [h]

theorem rangeIntError_isSome (lo hi x : Int) :
    (rangeIntError lo hi x).isSome = true ↔ (x < lo ∨ hi < x) := by
  unfold rangeIntError
  by_cases h1 : x < lo
  · rw [if_pos h1]
    simp [h1]
  · rw [if_neg h1]
    by_cases h2 : hi < x
    · rw [if_pos h2]
      simp [h2]
    · rw [if_neg h2]
      simp [h1, h2]

theorem gtRatError_isSome (x : Rat) :
    (gtRatError x).isSome = true ↔ x ≤ 0 := by
  unfold gtRatError
  by_cases h : x ≤ 0
  · rw [if_pos h]
    simp [h]
  · rw [if_neg h]
    simp [h]

theorem vinFieldError_isSome (v : String) :
    (vinFieldError v).isSome = true ↔
      (v.length < 1 ∨ 17 < v.length ∨ (pyStrip v).length = 0) := by
  unfold vinFieldError
  cases hs : strError 1 17 v with
  | some m =>
    have h17 := (strError_isSome 1 17 v).mp (by rw [hs]; rfl)
    simp only [Option.isSome_some, true_iff]
    rcases h17 with h | h
    · exact Or.inl h
    · exact Or.inr (Or.inl h)
  | none =>
    have h17 : ¬(v.length < 1 ∨ 17 < v.length) := by
      intro hc
      have hcs := (strError_isSome 1 17 v).mpr hc
      rw [hs] at hcs
      simp at hcs
    by_cases hz : (pyStrip v).length = 0
    · rw [if_pos hz]
      simp [hz]
    · rw [if_neg hz]
      simp only [Option.isSome_none, Bool.false_eq_true, false_iff]
      intro hc
      rcases hc with h | h | h
      · exact h17 (Or.inl h)
      · exact h17 (Or.inr h)
      · exact hz h

theorem mem_keys_fieldErrs_iff (k k' : String) (o : Option String) :
    k ∈ (fieldErrs k' o).map Prod.fst ↔ (k = k' ∧ o.isSome = true) := by
  cases o <;> simp [fieldErrs]

/-- Membership of each field's key in the aggregated error map is equivalent to
that field violating its constraint. -/
theorem mem_createErrors_manufacturer_name (p : CreatePayload) :
    "manufacturer_name" ∈ (createErrors p).map Prod.fst ↔
      (p.manufacturer_name.length < 1 ∨ 100 < p.manufacturer_name.length) := by
  unfold createErrors
  simp only [List.map_append, List.mem_append, mem_keys_fieldErrs_iff,
    String.reduceEq, false_and, or_false, false_or, true_and, strError_isSome]

theorem mem_createErrors_description (p : CreatePayload) :
    "description" ∈ (createErrors p).map Prod.fst ↔
      (∃ d, p.description = some d ∧ 500 < d.length) := by
  unfold createErrors
  simp only [List.map_append, List.mem_append, mem_keys_fieldErrs_iff,
    String.reduceEq, false_and, or_false, false_or, true_and, optStrError_isSome]

theorem mem_createErrors_horse_power (p : CreatePayload) :
    "horse_power" ∈ (createErrors p).map Prod.fst ↔ p.horse_power ≤ 0 := by
  unfold createErrors
  simp only [List.map_append, List.mem_append, mem_keys_fieldErrs_iff,
    String.reduceEq, false_and, or_false, false_or, true_and, gtIntError_isSome]

theorem mem_createErrors_model_name (p : CreatePayload) :
    "model_name" ∈ (createErrors p).map Prod.fst ↔
      (p.model_name.length < 1 ∨ 100 < p.model_name.length) := by
  unfold createErrors
  simp only [List.map_append, List.mem_append, mem_keys_fieldErrs_iff,
    String.reduceEq, false_and, or_false, false_or, true_and, strError_isSome]

theorem mem_createErrors_model_year (p : CreatePayload) :
    "model_year" ∈ (createErrors p).map Prod.fst ↔
      (p.model_year < 1900 ∨ 2100 < p.model_year) := by
  unfold createErrors
  simp only [List.map_append, List.mem_append, mem_keys_fieldErrs_iff,
    String.reduceEq, false_and, or_false, false_or, true_and, rangeIntError_isSome]

theorem mem_createErrors_purchase_price (p : CreatePayload) :
    "purchase_price" ∈ (createErrors p).map Prod.fst ↔ p.purchase_price ≤ 0 := by
  unfold createErrors
  simp only [List.map_append, List.mem_append, mem_keys_fieldErrs_iff,
    String.reduceEq, false_and, or_false, false_or, true_and, gtRatError_isSome]

theorem mem_createErrors_fuel_type (p : CreatePayload) :
    "fuel_type" ∈ (createErrors p).map Prod.fst ↔
      (p.fuel_type.length < 1 ∨ 50 < p.fuel_type.length) := by
  unfold createErrors
  simp only [List.map_append, List.mem_append, mem_keys_fieldErrs_iff,
    String.reduceEq, false_and, or_false, false_or, true_and, strError_isSome]

theorem mem_createErrors_vin (p : CreatePayload) :
    "vin" ∈ (createErrors p).map Prod.fst ↔
      (p.vin.length < 1 ∨ 17 < p.vin.length ∨ (pyStrip p.vin).length = 0) := by
  unfold createErrors
  simp only [List.map_append, List.mem_append, mem_keys_fieldErrs_iff,
    String.reduceEq, false_and, or_false, false_or, true_and, vinFieldError_isSome]

/-- C7: every create request violating one or more field constraints gets a 422
whose top-level `errors` mapping has exactly one entry per invalid field: the
keys are pairwise distinct and, for each of the eight fields, the key is
present precisely when that field violates its constraint. -/
theorem C7_validation_collects_all_errors
    (p : CreatePayload) (db : Store)
    (hviol :
      (p.manufacturer_name.length < 1 ∨ 100 < p.manufacturer_name.length) ∨
      (∃ d, p.description = some d ∧ 500 < d.length) ∨
      p.horse_power ≤ 0 ∨
      (p.model_name.length < 1 ∨ 100 < p.model_name.length) ∨
      (p.model_year < 1900 ∨ 2100 < p.model_year) ∨
      p.purchase_price ≤ 0 ∨
      (p.fuel_type.length < 1 ∨ 50 < p.fuel_type.length) ∨
      (p.vin.length < 1 ∨ 17 < p.vin.length ∨ (pyStrip p.vin).length = 0)) :
    ∃ errs, postVehicle (.json p) db = (⟨422, .errors errs⟩, db) ∧
      (errs.map Prod.fst).Nodup ∧
      ("manufacturer_name" ∈ errs.map Prod.fst ↔
        (p.manufacturer_name.length < 1 ∨ 100 < p.manufacturer_name.length)) ∧
      ("description" ∈ errs.map Prod.fst ↔
        (∃ d, p.description = some d ∧ 500 < d.length)) ∧
      ("horse_power" ∈ errs.map Prod.fst ↔ p.horse_power ≤ 0) ∧
      ("model_name" ∈ errs.map Prod.fst ↔
        (p.model_name.length < 1 ∨ 100 < p.model_name.length)) ∧
      ("model_year" ∈ errs.map Prod.fst ↔
        (p.model_year < 1900 ∨ 2100 < p.model_year)) ∧
      ("purchase_price" ∈ errs.map Prod.fst ↔ p.purchase_price ≤ 0) ∧
      ("fuel_type" ∈ errs.map Prod.fst ↔
        (p.fuel_type.length < 1 ∨ 50 < p.fuel_type.length)) ∧
      ("vin" ∈ errs.map Prod.fst ↔
        (p.vin.length < 1 ∨ 17 < p.vin.length ∨ (pyStrip p.vin).length = 0)) := by
  have hmn := mem_createErrors_manufacturer_name p
  have hde := mem_createErrors_description p
  have hhp := mem_createErrors_horse_power p
  have hmo := mem_createErrors_model_name p
  have hmy := mem_createErrors_model_year p
  have hpp := mem_createErrors_purchase_price p
  have hft := mem_createErrors_fuel_type p
  have hvi := mem_createErrors_vin p
  have hne : createErrors p ≠ [] := by
    intro h0
    have hkeys : (createErrors p).map Prod.fst = [] := by
      rw [h0]
      rfl
    rw [hkeys] at hmn hde hhp hmo hmy hpp hft hvi
    rcases hviol with h | h | h | h | h | h | h | h
    · exact absurd (hmn.mpr h) (by simp)
    · exact absurd (hde.mpr h) (by simp)
    · exact absurd (hhp.mpr h) (by simp)
    · exact absurd (hmo.mpr h) (by simp)
    · exact absurd (hmy.mpr h) (by simp)
    · exact absurd (hpp.mpr h) (by simp)
    · exact absurd (hft.mpr h) (by simp)
    · exact absurd (hvi.mpr h) (by simp)
  have hval : validateCreate p = .error (createErrors p) := by
    unfold validateCreate
    rw [if_neg hne]
  refine ⟨createErrors p, ?_, createErrors_keys_nodup p,
    hmn, hde, hhp, hmo, hmy, hpp, hft, hvi⟩
  simp only [postVehicle, hval]

/-- The spec's invalid-create scenario. -/
def invalidPayload : CreatePayload :=
  { hondaPayload with
    horse_power := -10
    model_year := 1800
    purchase_price := -1000 }

theorem C7_witness :
    ∃ errs, postVehicle (.json invalidPayload) [] = (⟨422, .errors errs⟩, []) ∧
      (errs.map Prod.fst).Nodup ∧
      ("manufacturer_name" ∈ errs.map Prod.fst ↔
        (invalidPayload.manufacturer_name.length < 1 ∨
          100 < invalidPayload.manufacturer_name.length)) ∧
      ("description" ∈ errs.map Prod.fst ↔
        (∃ d, invalidPayload.description = some d ∧ 500 < d.length)) ∧
      ("horse_power" ∈ errs.map Prod.fst ↔ invalidPayload.horse_power ≤ 0) ∧
      ("model_name" ∈ errs.map Prod.fst ↔
        (invalidPayload.model_name.length < 1 ∨
          100 < invalidPayload.model_name.length)) ∧
      ("model_year" ∈ errs.map Prod.fst ↔
        (invalidPayload.model_year < 1900 ∨ 2100 < invalidPayload.model_year)) ∧
      ("purchase_price" ∈ errs.map Prod.fst ↔ invalidPayload.purchase_price ≤ 0) ∧
      ("fuel_type" ∈ errs.map Prod.fst ↔
        (invalidPayload.fuel_type.length < 1 ∨
          50 < invalidPayload.fuel_type.length)) ∧
      ("vin" ∈ errs.map Prod.fst ↔
        (invalidPayload.vin.length < 1 ∨ 17 < invalidPayload.vin.length ∨
          (pyStrip invalidPayload.vin).length = 0)) :=
  C7_validation_collects_all_errors invalidPayload []
    (Or.inr (Or.inr (Or.inl (by decide))))

/-- C8: across create (of a validated payload), update and delete, the store
invariant is preserved: every stored VIN is canonical (uppercase, stripped,
at most 17 characters) and VINs are pairwise distinct; over canonical VINs
this uniqueness is case-insensitive — distinct stored VINs stay distinct
after case folding. -/
theorem C8_canonical_vin_invariant
    (db : Store) (p : CreatePayload) (vc : VehicleCreate) (r : String)
    (u : VehicleUpdate)
    (hinv : storeInv db) (hval : validateCreate p = .ok vc) :
    storeInv (create_vehicle vc db).2 ∧
    storeInv (update_vehicle r u db).2 ∧
    storeInv (delete_vehicle r db).2 ∧
    (∀ v ∈ db, ∀ w ∈ db, v.vin ≠ w.vin → pyUpper v.vin ≠ pyUpper w.vin) := by
  obtain ⟨hvin, hlen⟩ := validateCreate_ok hval
  have hc : canonicalVin (normalize_vin vc.vin) := by
    rw [hvin, normalize_vin_idem]
    exact canonicalVin_normalize hlen
  refine ⟨storeInv_create_vehicle hinv hc, storeInv_update_vehicle hinv,
    storeInv_delete_vehicle hinv, ?_⟩
  intro v hv w hw hne he
  exact hne (((hinv.1 v hv).1.symm.trans he).trans (hinv.1 w hw).1)

theorem C8_witness :
    storeInv (create_vehicle hondaCreate []).2 ∧
    storeInv (update_vehicle "1HGBH41JXMN109186" hpUpdate []).2 ∧
    storeInv (delete_vehicle "1HGBH41JXMN109186" []).2 ∧
    (∀ v ∈ ([] : Store), ∀ w ∈ ([] : Store),
      v.vin ≠ w.vin → pyUpper v.vin ≠ pyUpper w.vin) :=
  C8_canonical_vin_invariant [] hondaPayload hondaCreate "1HGBH41JXMN109186"
    hpUpdate (by decide) rfl

/-- C9: an unparseable request body on the JSON-accepting endpoints (create
and update) yields 400 with body exactly `{"detail": "Invalid JSON format"}`,
and the store is untouched. -/
theorem C9_malformed_json_400 (db : Store) (r : String) :
    postVehicle .malformed db = (⟨400, .detailMsg "Invalid JSON format"⟩, db) ∧
    putVehicle r .malformed db = (⟨400, .detailMsg "Invalid JSON format"⟩, db) :=
  ⟨rfl, rfl⟩

/-- C10 counterexample: the update handler's 422 `IntegrityError` branch (the
"Update would violate unique constraint" response) is reachable: sending
`{"manufacturer_name": null}` for a stored vehicle triggers it, since the
store rejects `NULL` in the non-nullable column. -/
theorem C10_counterexample_conflict_branch_reachable :
    (update_vehicle "1HGBH41JXMN109186" nullManufacturerUpdate [hondaVehicle]).1
      = ⟨422, .detailErrors [("vin", updateConflictMsg)]⟩ ∧
    updateErrors nullManufacturerUpdate = [] :=
  ⟨rfl, rfl⟩

/-- C10 (amended): update can never change a stored `vin` (the update schema
has no `vin` field), so no uniqueness violation can arise from an update; the
handler's 422 `IntegrityError` branch is unreachable whenever no
explicitly-present field is null (it is reachable only through not-null
violations, never through a VIN conflict). -/
theorem C10_update_cannot_change_vin
    (r : String) (u : VehicleUpdate) (db : Store)
    (h1 : u.manufacturer_name ≠ some none) (h2 : u.horse_power ≠ some none)
    (h3 : u.model_name ≠ some none) (h4 : u.model_year ≠ some none)
    (h5 : u.purchase_price ≠ some none) (h6 : u.fuel_type ≠ some none) :
    ((update_vehicle r u db).2).map Vehicle.vin = db.map Vehicle.vin ∧
    (update_vehicle r u db).1
      ≠ ⟨422, .detailErrors [("vin", updateConflictMsg)]⟩ := by
  refine ⟨update_vehicle_vins r u db, ?_⟩
  unfold update_vehicle
  cases hfind : findByVin db (normalize_vin r) with
  | none => simp [hfind]
  | some v =>
    obtain ⟨v', hcommit⟩ := commitRow_applyUpdate_of_nonNull v u h1 h2 h3 h4 h5 h6
    simp [hfind, hcommit]

theorem C10_witness :
    ((update_vehicle "1hgbh41jxmn109186" hpUpdate [hondaVehicle]).2).map Vehicle.vin
      = [hondaVehicle].map Vehicle.vin ∧
    (update_vehicle "1hgbh41jxmn109186" hpUpdate [hondaVehicle]).1
      ≠ ⟨422, .detailErrors [("vin", updateConflictMsg)]⟩ :=
  C10_update_cannot_change_vin "1hgbh41jxmn109186" hpUpdate [hondaVehicle]
    (by decide) (by decide) (by decide) (by decide) (by decide) (by decide)

end VehicleApi
